import Mathlib

/-!
Verification of the modular-api FastAPI template (audit logging, soft delete,
request context, JWT decoding, session management, and the user CRUD layering)
against a shallow Lean embedding of the relevant Python modules:
`core/audit.py`, `core/context.py`, `core/database.py`, `core/security.py`,
`modules/user/service.py`, `modules/user/repository.py`.
-/

namespace ModularApi

/-! ## Python value model

Audit values crossing `serialize_value` are arbitrary Python objects.  We model
the ones the code type-tests for (`None`, `datetime`, `UUID`, `Enum`), the JSON
primitives, and a catch-all object carrying whether `json.dumps` accepts it and
its `str()` representation.  A `datetime` is modelled by its `isoformat()`
string, a `UUID` by its 128-bit integer, an `Enum` member by its `.value`. -/

inductive Value where
  | vnone : Value
  | vint : Int → Value
  | vbool : Bool → Value
  | vstr : String → Value
  | vdatetime : String → Value
  | vuuid : Nat → Value
  | venum : Value → Value
  | vobj : Bool → String → Value
deriving DecidableEq, Repr

/-- Whether `json.dumps` accepts the value directly (JSON primitives do; a
datetime, a UUID or a plain Enum member raise `TypeError`; an opaque object
carries its own flag). -/
def jsonDumpsOk : Value → Bool
  | Value.vnone => true
  | Value.vint _ => true
  | Value.vbool _ => true
  | Value.vstr _ => true
  | Value.vdatetime _ => false
  | Value.vuuid _ => false
  | Value.venum _ => false
  | Value.vobj ok _ => ok

/-! ### UUID strings

`str(uuid)` is the canonical lowercase 8-4-4-4-12 hex form; `uuid.UUID(s)`
strips hyphens, requires 32 hex digits and parses base 16.  We model both. -/

/-- Hex digit character, lowercase (models `'%x' %` formatting). -/
def hexDigitChar (d : Nat) : Char :=
  if d < 10 then Char.ofNat (48 + d) else Char.ofNat (87 + d)

/-- Value of a hex digit character, upper or lower case (models what
`int(s, 16)` accepts per character). -/
def hexDigitVal (c : Char) : Option Nat :=
  if 48 ≤ c.toNat ∧ c.toNat ≤ 57 then some (c.toNat - 48)
  else if 97 ≤ c.toNat ∧ c.toNat ≤ 102 then some (c.toNat - 87)
  else if 65 ≤ c.toNat ∧ c.toNat ≤ 70 then some (c.toNat - 55)
  else none

/-- Big-endian base-16 digits of `n`, fixed width `w` (models `'%032x'`-style
zero-padded formatting when `w = 32`). -/
def hexDigitsBE : Nat → Nat → List Nat
  | 0, _ => []
  | w + 1, n => hexDigitsBE w (n / 16) ++ [n % 16]

/-- The 32 hex characters of a UUID's value. -/
def uuidChars (n : Nat) : List Char :=
  (hexDigitsBE 32 n).map hexDigitChar

/-- Model of `str()` of a `UUID`: the 32 hex digits grouped 8-4-4-4-12 by hyphens. -/
def uuidToString (n : Nat) : String :=
  let cs := uuidChars n
  String.mk (cs.take 8 ++ '-' :: ((cs.drop 8).take 4 ++ '-' ::
    ((cs.drop 12).take 4 ++ '-' :: ((cs.drop 16).take 4 ++ '-' :: cs.drop 20))))

/-- Accumulating base-16 parse of a character list (models `int(s, 16)`),
failing on a non-hex character. -/
def parseHexNat (acc : Nat) : List Char → Option Nat
  | [] => some acc
  | c :: cs =>
    match hexDigitVal c with
    | some d => parseHexNat (acc * 16 + d) cs
    | none => none

/-- Model of `uuid.UUID(s)` as a partial function: drop hyphens, require 32 hex digits,
parse base 16; `none` models the `ValueError` on malformed input. -/
def parseUUID (s : String) : Option Nat :=
  let cs := s.toList.filter (fun c => c ≠ '-')
  if cs.length = 32 then parseHexNat 0 cs else none

/-- Python `str()` of a modelled value (used by `serialize_value`'s fallback;
the branches unreachable from `serialize_value` are best-effort). -/
def pyStr : Value → String
  | Value.vnone => "None"
  | Value.vint n => toString n
  | Value.vbool b => if b then "True" else "False"
  | Value.vstr s => s
  | Value.vdatetime iso => iso
  | Value.vuuid n => uuidToString n
  | Value.venum v => pyStr v
  | Value.vobj _ s => s

/-! ## core/audit.py : serialization and redaction -/

/-- Model of `serialize_value` from core/audit.py: `None` stays `None`, a datetime maps
to its `isoformat()`, a UUID to `str()`, an Enum member to its `.value`; then
anything `json.dumps` accepts is returned unchanged and everything else maps to
`str(value)`. -/
def serialize_value : Value → Value
  | Value.vnone => Value.vnone
  | Value.vdatetime iso => Value.vstr iso
  | Value.vuuid n => Value.vstr (uuidToString n)
  | Value.venum v => v
  | v => if jsonDumpsOk v then v else Value.vstr (pyStr v)

/-- A field-values dictionary (Python dicts preserve insertion order, so an
ordered association list is the faithful image). -/
abbrev Vals := List (String × Value)

/-- Model of `_serialize_values` from core/audit.py. -/
def _serialize_values (values : Vals) : Vals :=
  values.map (fun kv => (kv.1, serialize_value kv.2))

/-- Model of `SENSITIVE_FIELDS` from core/audit.py. -/
def SENSITIVE_FIELDS : List String :=
  ["password", "hashed_password", "access_token", "refresh_token",
   "secret_key", "api_key"]

/-- Model of `sanitize_values` from core/audit.py: replace the value of every sensitive
key by `"***REDACTED***"`, keep everything else; `None` passes through. -/
def sanitize_values : Option Vals → Option Vals
  | none => none
  | some values =>
    some (values.map (fun kv =>
      (kv.1, if kv.1 ∈ SENSITIVE_FIELDS then Value.vstr "***REDACTED***" else kv.2)))

/-! ## core/context.py : request context over a contextvar

The contextvar holding the current `RequestContext` is modelled by explicit
state passing: a function reading or writing it takes the current
`Option RequestContext` and returns the new one. -/

/-- Model of `RequestContext` dataclass from core/context.py; a user id is the UUID's
128-bit value. -/
structure RequestContext where
  user_id : Option Nat
  ip_address : Option String
  user_agent : Option String
  request_id : Option String
deriving DecidableEq, Repr

/-- Model of `get_request_context` from core/context.py: return the stored context, or
create, store and return a fresh all-`None` one when the contextvar is unset.
Returns the context together with the contextvar's new state. -/
def get_request_context :
    Option RequestContext → RequestContext × Option RequestContext
  | none => (⟨none, none, none, none⟩, some ⟨none, none, none, none⟩)
  | some ctx => (ctx, some ctx)

/-- Model of `set_request_context` from core/context.py. -/
def set_request_context (ctx : RequestContext)
    (_ : Option RequestContext) : Option RequestContext :=
  some ctx

/-- Model of `get_current_user_id` from core/context.py. -/
def get_current_user_id (st : Option RequestContext) :
    Option Nat × Option RequestContext :=
  let p := get_request_context st
  (p.1.user_id, p.2)

/-! ## core/audit.py : entities, change tracking and the flush listener

A flushed ORM entity is modelled by the data the listener reads from it:
its table name, `str()` of its id, whether it is an `AuditLog` instance,
its `__auditable__` flag, its `__audit_exclude__` names, its mapped columns
with current values, its attribute change histories, and its relationship
attribute names. -/

/-- One entry of `sqlalchemy.inspect(target).attrs`: the attribute key, the
pending history (`deleted`, `added`) and the current `getattr` value. -/
structure AttrState where
  key : String
  deleted : List Value
  added : List Value
  current : Value
deriving DecidableEq, Repr

/-- Model of `AttributeHistory.has_changes()`: true when `added` or `deleted` is
non-empty. -/
def hist_has_changes (a : AttrState) : Bool :=
  !a.added.isEmpty || !a.deleted.isEmpty

/-- A flushed entity as seen by the audit listener. -/
structure Entity where
  tablename : String
  idStr : String
  isAuditLog : Bool
  auditable : Bool
  auditExclude : List String
  columns : Vals
  attrs : List AttrState
  relationshipKeys : List String
deriving DecidableEq, Repr

/-- Model of `AUDITED_TABLES` from core/audit.py (empty in the template). -/
def AUDITED_TABLES : List String := []

/-- Model of `AuditAction` enum from core/audit.py. -/
inductive AuditAction where
  | INSERT
  | UPDATE
  | DELETE
deriving DecidableEq, Repr

/-- Model of `_get_exclude_fields` from core/audit.py: the entity's
`__audit_exclude__` names (an absent or falsy attribute is the empty set). -/
def _get_exclude_fields (t : Entity) : List String :=
  t.auditExclude

/-- Model of `_filter_excluded` from core/audit.py. -/
def _filter_excluded (values : Vals) (excludeFields : List String) : Vals :=
  if excludeFields.isEmpty then values
  else values.filter (fun kv => kv.1 ∉ excludeFields)

/-- Model of `_model_to_dict` from core/audit.py: column name to current value (mapped
entities always have `__table__`). -/
def _model_to_dict (t : Entity) : Vals :=
  t.columns

/-- Model of `_is_audited` from core/audit.py: an `AuditLog` instance is never audited;
otherwise a truthy `__auditable__` suffices, else membership of the table name
in `AUDITED_TABLES`. -/
def _is_audited (t : Entity) : Bool :=
  if t.isAuditLog then false
  else if t.auditable then true
  else !t.tablename.isEmpty && AUDITED_TABLES.contains t.tablename

/-- Python `key.startswith("_")`: the first character is an underscore. -/
def startswith_underscore (s : String) : Bool :=
  match s.toList with
  | [] => false
  | c :: _ => c = '_'

/-- The attribute filter inside `get_changes`: pending changes, and the key
neither starts with an underscore, nor names a relationship, nor is excluded. -/
def audit_included (t : Entity) (a : AttrState) : Bool :=
  hist_has_changes a && !(startswith_underscore a.key)
    && !(t.relationshipKeys.contains a.key)
    && !((_get_exclude_fields t).contains a.key)

/-- Model of `hist.deleted[0] if hist.deleted else None`. -/
def change_old_val (a : AttrState) : Value :=
  match a.deleted with
  | [] => Value.vnone
  | v :: _ => v

/-- Model of `hist.added[0] if hist.added else getattr(target, key)`. -/
def change_new_val (a : AttrState) : Value :=
  match a.added with
  | [] => a.current
  | v :: _ => v

/-- Model of `get_changes` from core/audit.py, as the source loop over `insp.attrs`
accumulating `old_values`, `new_values` and `changed_fields` in order. -/
def get_changes_loop (t : Entity) : List AttrState → Vals × Vals × List String
  | [] => ([], [], [])
  | a :: rest =>
    let acc := get_changes_loop t rest
    if audit_included t a then
      ((a.key, serialize_value (change_old_val a)) :: acc.1,
       (a.key, serialize_value (change_new_val a)) :: acc.2.1,
       a.key :: acc.2.2)
    else acc

/-- Model of `get_changes` from core/audit.py. -/
def get_changes (t : Entity) : Vals × Vals × List String :=
  get_changes_loop t t.attrs

/-- An `AuditLog` row as built by `create_audit_log` (`changed_at` carries the
`utc_now()` timestamp passed in by the caller's moment). -/
structure AuditLogRec where
  table_name : String
  record_id : String
  action : AuditAction
  old_values : Option Vals
  new_values : Option Vals
  changed_fields : Option (List String)
  changed_by : Option Nat
  changed_at : String
  ip_address : Option String
  user_agent : Option String
deriving DecidableEq, Repr

/-- Model of `create_audit_log` from core/audit.py: build the `AuditLog` row from the
ambient request context (which supplies `changed_by`, `ip_address` and
`user_agent`), sanitizing both value dictionaries.  The session side effect
`session.add` is modelled by returning the row. -/
def create_audit_log (ctx : RequestContext) (now : String)
    (action : AuditAction) (t : Entity)
    (old_values : Option Vals) (new_values : Option Vals)
    (changed_fields : Option (List String)) : AuditLogRec :=
  { table_name := t.tablename
    record_id := t.idStr
    action := action
    old_values := sanitize_values old_values
    new_values := sanitize_values new_values
    changed_fields := changed_fields
    changed_by := ctx.user_id
    changed_at := now
    ip_address := ctx.ip_address
    user_agent := ctx.user_agent }

/-- The `session.new` / `session.dirty` / `session.deleted` collections at
flush time. -/
structure SessionState where
  newObjs : List Entity
  dirty : List Entity
  deleted : List Entity
deriving Repr

/-- The `session.new` loop of `audit_after_flush`. -/
def audit_insert_recs (ctx : RequestContext) (now : String) :
    List Entity → List AuditLogRec
  | [] => []
  | t :: rest =>
    if _is_audited t then
      create_audit_log ctx now AuditAction.INSERT t none
          (some (_serialize_values
            (_filter_excluded (_model_to_dict t) (_get_exclude_fields t)))) none
        :: audit_insert_recs ctx now rest
    else audit_insert_recs ctx now rest

/-- The `session.dirty` loop of `audit_after_flush`: a record only when the
changed-field list is non-empty. -/
def audit_update_recs (ctx : RequestContext) (now : String) :
    List Entity → List AuditLogRec
  | [] => []
  | t :: rest =>
    if _is_audited t then
      let c := get_changes t
      if c.2.2.isEmpty then audit_update_recs ctx now rest
      else
        create_audit_log ctx now AuditAction.UPDATE t (some c.1) (some c.2.1)
            (some c.2.2)
          :: audit_update_recs ctx now rest
    else audit_update_recs ctx now rest

/-- The `session.deleted` loop of `audit_after_flush`. -/
def audit_delete_recs (ctx : RequestContext) (now : String) :
    List Entity → List AuditLogRec
  | [] => []
  | t :: rest =>
    if _is_audited t then
      create_audit_log ctx now AuditAction.DELETE t
          (some (_serialize_values
            (_filter_excluded (_model_to_dict t) (_get_exclude_fields t))))
          none none
        :: audit_delete_recs ctx now rest
    else audit_delete_recs ctx now rest

/-- Model of `audit_after_flush` from core/audit.py: the audit rows added to the
session, in loop order (inserts, then updates, then deletes). -/
def audit_after_flush (ctx : RequestContext) (now : String)
    (s : SessionState) : List AuditLogRec :=
  audit_insert_recs ctx now s.newObjs
    ++ audit_update_recs ctx now s.dirty
    ++ audit_delete_recs ctx now s.deleted

/-! ## core/database.py : enhanced base class, soft delete, session scope -/

/-- The `Base`-mapped state an entity row carries for soft deletion
(timestamps modelled as ISO strings; `utc_now()` is a parameter). -/
structure OrmRow where
  id : Nat
  created_at : String
  updated_at : String
  deleted_at : Option String
deriving DecidableEq, Repr

/-- Model of `Base.is_deleted` property. -/
def OrmRow.is_deleted (e : OrmRow) : Bool :=
  e.deleted_at.isSome

/-- Model of `Base.soft_delete`: set `deleted_at` to `utc_now()`. -/
def OrmRow.soft_delete (e : OrmRow) (now : String) : OrmRow :=
  { e with deleted_at := some now }

/-- Model of `Base.restore`: clear `deleted_at`. -/
def OrmRow.restore (e : OrmRow) : OrmRow :=
  { e with deleted_at := none }

/-- A `Select` statement over the entity, reduced to the parts the code
touches: the conjunction of WHERE predicates plus untouched components. -/
structure SelectStmt where
  wheres : List (OrmRow → Bool)
  offsetN : Option Nat
  limitN : Option Nat
  orderBy : Option String

/-- A row satisfies all WHERE clauses of a statement. -/
def matchesWheres (stmt : SelectStmt) (r : OrmRow) : Bool :=
  stmt.wheres.all (fun w => w r)

/-- Model of `filter_active` from core/database.py: add
`WHERE entity.deleted_at IS NULL` to the statement. -/
def filter_active (stmt : SelectStmt) : SelectStmt :=
  { stmt with wheres := stmt.wheres ++ [fun r => r.deleted_at.isNone] }

/-- A database transaction scope: the state visible to outside transactions
and the pending state of the current unit of work. -/
structure DbState (σ : Type) where
  committed : σ
  pending : σ
deriving DecidableEq, Repr

/-- Model of `session.commit()`: make the pending state durable. -/
def db_commit {σ : Type} (db : DbState σ) : DbState σ :=
  { committed := db.pending, pending := db.pending }

/-- Model of `session.rollback()`: discard the pending state. -/
def db_rollback {σ : Type} (db : DbState σ) : DbState σ :=
  { committed := db.committed, pending := db.committed }

/-- The commit/rollback calls `get_db` issues, in order. -/
inductive SessionOp where
  | commit
  | rollback
deriving DecidableEq, Repr

/-- Model of `get_db` from core/database.py: run the request handler on the session's
pending state; on normal completion commit, on an exception roll back and
re-raise that same exception.  Returns the final database state, the session
operations issued after the handler, and the propagated exception. -/
def get_db {σ ε : Type} (handler : σ → Except ε σ) (db : DbState σ) :
    DbState σ × List SessionOp × Option ε :=
  match handler db.pending with
  | Except.ok s => (db_commit { db with pending := s }, [SessionOp.commit], none)
  | Except.error e => (db_rollback db, [SessionOp.rollback], some e)

/-! ## core/security.py : JWT encode/decode

`jwt.encode`/`jwt.decode` (PyJWT, HS256) are modelled by a token value
carrying its claims, its `exp` and the secret that signed it, plus a
constructor for strings that are not structurally valid tokens.  Claim values
are JSON strings or null (the shapes `"sub"` takes in this template). -/

inductive JwtVal where
  | jstr : String → JwtVal
  | jnull : JwtVal
deriving DecidableEq, Repr

inductive TokenRepr where
  | signed : List (String × JwtVal) → Nat → String → TokenRepr
  | malformed : String → TokenRepr
deriving DecidableEq, Repr

/-- Model of `create_access_token` from core/security.py: copy the data, set `exp` to
now plus the given delta (default `access_token_expire_minutes` from
settings), sign with the secret.  Times are seconds since the epoch. -/
def create_access_token (data : List (String × JwtVal)) (secret : String)
    (now : Nat) (accessTokenExpireMinutes : Nat) (expiresDelta : Option Nat) :
    TokenRepr :=
  TokenRepr.signed data (now + expiresDelta.getD (accessTokenExpireMinutes * 60))
    secret

/-- Model of `jwt.decode` with HS256 and default options: reject a malformed token, a
signature by a different secret, and an expired token (`exp < now`); otherwise
return the payload.  `none` models `InvalidTokenError`. -/
def jwt_decode (t : TokenRepr) (secret : String) (now : Nat) :
    Option (List (String × JwtVal)) :=
  match t with
  | TokenRepr.malformed _ => none
  | TokenRepr.signed payload exp sec =>
    if sec = secret then (if exp < now then none else some payload) else none

/-- Model of `decode_access_token` from core/security.py: decode the token, read
`payload.get("sub")`, return `UUID(sub) if sub else None`, with
`InvalidTokenError`, `ValueError` and `TypeError` all mapped to `None`. -/
def decode_access_token (t : TokenRepr) (secret : String) (now : Nat) :
    Option Nat :=
  match jwt_decode t secret now with
  | none => none
  | some payload =>
    match payload.lookup "sub" with
    | none => none
    | some JwtVal.jnull => none
    | some (JwtVal.jstr s) => if s = "" then none else parseUUID s

/-! ## modules/user : the service / repository call surface

`UserService` invokes repository attributes by name with keyword arguments;
Python resolves the attribute first (`AttributeError` when the class does not
define it) and then binds the keywords (`TypeError` on an unknown keyword).
The repository class in modules/user/repository.py defines exactly
`get_by_id`, `get_by_email`, `list`, `create` and `delete`, with the keyword
parameters below. -/

inductive PyCallResult where
  | ok
  | attributeError
  | typeError
deriving DecidableEq, Repr

/-- The methods `UserRepository` (modules/user/repository.py) defines, each
with its non-self parameter names. -/
def userRepositoryMethodParams : String → Option (List String)
  | "get_by_id" => some ["user_id"]
  | "get_by_email" => some ["email"]
  | "list" => some ["skip", "limit"]
  | "create" => some ["user"]
  | "delete" => some ["user"]
  | _ => none

/-- Dispatch of `self.repository.<m>(**kwargs)` against the repository's
method table. -/
def callUserRepository (m : String) (kwargs : List String) : PyCallResult :=
  match userRepositoryMethodParams m with
  | none => PyCallResult.attributeError
  | some ps =>
    if kwargs.all (fun k => ps.contains k) then PyCallResult.ok
    else PyCallResult.typeError

/-- The repository calls each `UserService` method makes
(modules/user/service.py), as method name with keyword-argument names:
`list` calls `repository.list(page=..., page_size=...)`, `get` calls
`repository.get_by_id(...)`, `create` first calls
`repository.get_by_username(..., include_deleted=True)`, `delete` calls
`repository.get_by_id(...)` then `repository.delete(...)`. -/
def userServiceRepositoryCalls : List (String × String × List String) :=
  [("list", "list", ["page", "page_size"]),
   ("get", "get_by_id", []),
   ("create", "get_by_username", ["include_deleted"]),
   ("delete", "get_by_id", []),
   ("delete", "delete", [])]

/-! ## Helper lemmas -/

theorem zip_map_self (f : α → β) (l : List α) :
    ∀ p ∈ l.zip (l.map f), p.2 = f p.1 := by
  induction l with
  | nil => intro p hp; cases hp
  | cons a rest ih =>
    intro p hp
    simp only [List.map_cons, List.zip_cons_cons, List.mem_cons] at hp
    rcases hp with hp | hp
    · rw [hp]
    · exact ih p hp

theorem audit_insert_recs_all_auditlog (ctx : RequestContext) (now : String)
    (l : List Entity) (h : ∀ t ∈ l, t.isAuditLog = true) :
    audit_insert_recs ctx now l = [] := by
  induction l with
  | nil => rfl
  | cons t rest ih =>
    have ht : t.isAuditLog = true := h t (List.mem_cons_self t rest)
    simp only [audit_insert_recs, _is_audited, ht, if_true, if_false]
    exact ih (fun u hu => h u (List.mem_cons_of_mem t hu))

theorem audit_update_recs_all_auditlog (ctx : RequestContext) (now : String)
    (l : List Entity) (h : ∀ t ∈ l, t.isAuditLog = true) :
    audit_update_recs ctx now l = [] := by
  induction l with
  | nil => rfl
  | cons t rest ih =>
    have ht : t.isAuditLog = true := h t (List.mem_cons_self t rest)
    simp only [audit_update_recs, _is_audited, ht, if_true, if_false]
    exact ih (fun u hu => h u (List.mem_cons_of_mem t hu))

theorem audit_delete_recs_all_auditlog (ctx : RequestContext) (now : String)
    (l : List Entity) (h : ∀ t ∈ l, t.isAuditLog = true) :
    audit_delete_recs ctx now l = [] := by
  induction l with
  | nil => rfl
  | cons t rest ih =>
    have ht : t.isAuditLog = true := h t (List.mem_cons_self t rest)
    simp only [audit_delete_recs, _is_audited, ht, if_true, if_false]
    exact ih (fun u hu => h u (List.mem_cons_of_mem t hu))

theorem hexDigitsBE_length (w : Nat) : ∀ n, (hexDigitsBE w n).length = w := by
  induction w with
  | zero => intro n; rfl
  | succ w ih =>
    intro n
    simp [hexDigitsBE, ih]

theorem hexDigitsBE_lt (w : Nat) : ∀ n, ∀ d ∈ hexDigitsBE w n, d < 16 := by
  induction w with
  | zero => intro n d hd; cases hd
  | succ w ih =>
    intro n d hd
    rcases List.mem_append.mp hd with hd | hd
    · exact ih (n / 16) d hd
    · simp at hd
      subst hd
      exact Nat.mod_lt _ (by norm_num)

theorem hexDigitVal_hexDigitChar : ∀ d < 16, hexDigitVal (hexDigitChar d) = some d := by
  decide

theorem hexDigitChar_ne_dash : ∀ d < 16, hexDigitChar d ≠ '-' := by
  decide

theorem parseHexNat_append (xs ys : List Char) :
    ∀ acc, parseHexNat acc (xs ++ ys)
      = match parseHexNat acc xs with
        | some a => parseHexNat a ys
        | none => none := by
  induction xs with
  | nil => intro acc; rfl
  | cons c rest ih =>
    intro acc
    simp only [List.cons_append, parseHexNat]
    cases hexDigitVal c with
    | none => rfl
    | some d => exact ih _

theorem parseHexNat_hexDigitsBE (w : Nat) :
    ∀ n acc, parseHexNat acc ((hexDigitsBE w n).map hexDigitChar)
      = some (acc * 16 ^ w + n % 16 ^ w) := by
  induction w with
  | zero => intro n acc; simp [hexDigitsBE, parseHexNat, Nat.mod_one]
  | succ w ih =>
    intro n acc
    rw [hexDigitsBE, List.map_append, parseHexNat_append, ih (n / 16) acc]
    have hd : hexDigitVal (hexDigitChar (n % 16)) = some (n % 16) :=
      hexDigitVal_hexDigitChar _ (Nat.mod_lt _ (by norm_num))
    simp only [List.map_cons, List.map_nil, parseHexNat, hd]
    congr 1
    have hsplit : n % 16 ^ (w + 1) = 16 * (n / 16 % 16 ^ w) + n % 16 := by
      rw [pow_succ, Nat.mul_comm (16 ^ w) 16, Nat.mod_mul]
      ring
    rw [hsplit, pow_succ]
    ring

theorem uuidChars_length (n : Nat) : (uuidChars n).length = 32 := by
  simp [uuidChars, hexDigitsBE_length]

theorem uuidChars_ne_dash (n : Nat) : ∀ c ∈ uuidChars n, c ≠ '-' := by
  intro c hc
  rcases List.mem_map.mp hc with ⟨d, hd, rfl⟩
  exact hexDigitChar_ne_dash d (hexDigitsBE_lt 32 n d hd)

theorem uuidToString_toList (n : Nat) :
    (uuidToString n).toList
      = (uuidChars n).take 8 ++ '-' :: (((uuidChars n).drop 8).take 4 ++ '-' ::
        (((uuidChars n).drop 12).take 4 ++ '-' ::
          (((uuidChars n).drop 16).take 4 ++ '-' :: (uuidChars n).drop 20))) :=
  rfl

theorem uuidToString_filter (n : Nat) :
    (uuidToString n).toList.filter (fun c => c ≠ '-') = uuidChars n := by
  have hall : ∀ c ∈ uuidChars n, c ≠ '-' := uuidChars_ne_dash n
  have hseg : ∀ l : List Char, (∀ c ∈ l, c ∈ uuidChars n) →
      l.filter (fun c => c ≠ '-') = l := fun l hl =>
    List.filter_eq_self.mpr (fun c hc => by
      simpa using hall c (hl c hc))
  have e1 := hseg ((uuidChars n).take 8) (fun c hc => List.mem_of_mem_take hc)
  have e2 := hseg (((uuidChars n).drop 8).take 4)
    (fun c hc => List.mem_of_mem_drop (List.mem_of_mem_take hc))
  have e3 := hseg (((uuidChars n).drop 12).take 4)
    (fun c hc => List.mem_of_mem_drop (List.mem_of_mem_take hc))
  have e4 := hseg (((uuidChars n).drop 16).take 4)
    (fun c hc => List.mem_of_mem_drop (List.mem_of_mem_take hc))
  have e5 := hseg ((uuidChars n).drop 20) (fun c hc => List.mem_of_mem_drop hc)
  have hcons : ∀ l : List Char, ('-' :: l).filter (fun c => c ≠ '-')
      = l.filter (fun c => c ≠ '-') := by
    intro l
    simp
  have h12 : ((uuidChars n).drop 8).take 4 ++ (uuidChars n).drop 12
      = (uuidChars n).drop 8 := by
    have h := List.take_append_drop 4 ((uuidChars n).drop 8)
    rwa [List.drop_drop] at h
  have h16 : ((uuidChars n).drop 12).take 4 ++ (uuidChars n).drop 16
      = (uuidChars n).drop 12 := by
    have h := List.take_append_drop 4 ((uuidChars n).drop 12)
    rwa [List.drop_drop] at h
  have h20 : ((uuidChars n).drop 16).take 4 ++ (uuidChars n).drop 20
      = (uuidChars n).drop 16 := by
    have h := List.take_append_drop 4 ((uuidChars n).drop 16)
    rwa [List.drop_drop] at h
  rw [uuidToString_toList, List.filter_append, hcons, List.filter_append,
    hcons, List.filter_append, hcons, List.filter_append, hcons,
    e1, e2, e3, e4, e5, h20, h16, h12, List.take_append_drop]

theorem parseUUID_uuidToString (n : Nat) (h : n < 16 ^ 32) :
    parseUUID (uuidToString n) = some n := by
  unfold parseUUID
  simp only [uuidToString_filter, uuidChars_length, reduceIte]
  rw [uuidChars, parseHexNat_hexDigitsBE 32 n 0]
  have h2 : n < 340282366920938463463374607431768211456 := by
    calc n < 16 ^ 32 := h
    _ = 340282366920938463463374607431768211456 := by norm_num
  simp [Nat.mod_eq_of_lt h2]

theorem uuidToString_ne_empty (n : Nat) : uuidToString n ≠ "" := by
  intro h
  have h2 : (uuidToString n).toList = ("" : String).toList := by rw [h]
  rw [uuidToString_toList] at h2
  simp at h2

theorem change_old_val_eq_headD (a : AttrState) :
    change_old_val a = a.deleted.headD Value.vnone := by
  cases a with
  | mk k d ad c => cases d <;> rfl

theorem change_new_val_eq_headD (a : AttrState) :
    change_new_val a = a.added.headD a.current := by
  cases a with
  | mk k d ad c => cases ad <;> rfl

theorem get_changes_loop_eq (t : Entity) (l : List AttrState) :
    get_changes_loop t l
      = ((l.filter (audit_included t)).map
           (fun a => (a.key, serialize_value (change_old_val a))),
         (l.filter (audit_included t)).map
           (fun a => (a.key, serialize_value (change_new_val a))),
         (l.filter (audit_included t)).map AttrState.key) := by
  induction l with
  | nil => rfl
  | cons a rest ih =>
    by_cases h : audit_included t a
    · simp [get_changes_loop, ih, h]
    · simp [get_changes_loop, ih, h]

theorem audit_insert_recs_eq (ctx : RequestContext) (now : String)
    (l : List Entity) :
    audit_insert_recs ctx now l
      = (l.filter _is_audited).map (fun t =>
          create_audit_log ctx now AuditAction.INSERT t none
            (some (_serialize_values
              (_filter_excluded (_model_to_dict t) (_get_exclude_fields t))))
            none) := by
  induction l with
  | nil => rfl
  | cons t rest ih =>
    by_cases h : _is_audited t
    · simp [audit_insert_recs, ih, h]
    · simp [audit_insert_recs, ih, h]

theorem audit_update_recs_eq (ctx : RequestContext) (now : String)
    (l : List Entity) :
    audit_update_recs ctx now l
      = (l.filter (fun t => _is_audited t && !(get_changes t).2.2.isEmpty)).map
          (fun t =>
            create_audit_log ctx now AuditAction.UPDATE t
              (some (get_changes t).1) (some (get_changes t).2.1)
              (some (get_changes t).2.2)) := by
  induction l with
  | nil => rfl
  | cons t rest ih =>
    by_cases h : _is_audited t
    · by_cases hc : (get_changes t).2.2.isEmpty
      · simp [audit_update_recs, ih, h, hc]
      · simp [audit_update_recs, ih, h, hc]
    · simp [audit_update_recs, ih, h]

theorem audit_delete_recs_eq (ctx : RequestContext) (now : String)
    (l : List Entity) :
    audit_delete_recs ctx now l
      = (l.filter _is_audited).map (fun t =>
          create_audit_log ctx now AuditAction.DELETE t
            (some (_serialize_values
              (_filter_excluded (_model_to_dict t) (_get_exclude_fields t))))
            none none) := by
  induction l with
  | nil => rfl
  | cons t rest ih =>
    by_cases h : _is_audited t
    · simp [audit_delete_recs, ih, h]
    · simp [audit_delete_recs, ih, h]

/-! ## Claims -/

/-- Claim C2: `sanitize_values` keeps exactly the keys of its input, replaces
the value of every sensitive key by `"***REDACTED***"`, leaves every other
value unchanged, maps `None` to `None`; and `create_audit_log` applies it to
both `old_values` and `new_values` of every record it creates. -/
theorem sanitize_values_spec :
    sanitize_values none = none
    ∧ (∀ vs : Vals, ∃ ws : Vals,
        sanitize_values (some vs) = some ws
        ∧ ws.map Prod.fst = vs.map Prod.fst
        ∧ ∀ p ∈ vs.zip ws,
            (p.1.1 ∈ SENSITIVE_FIELDS → p.2.2 = Value.vstr "***REDACTED***")
            ∧ (p.1.1 ∉ SENSITIVE_FIELDS → p.2.2 = p.1.2))
    ∧ (∀ ctx now action t old new cf,
        (create_audit_log ctx now action t old new cf).old_values
          = sanitize_values old
        ∧ (create_audit_log ctx now action t old new cf).new_values
          = sanitize_values new) := by
  refine ⟨rfl, ?_, fun _ctx _now _action _t _old _new _cf => ⟨rfl, rfl⟩⟩
  intro vs
  refine ⟨_, rfl, by simp, ?_⟩
  intro p hp
  have h := zip_map_self _ vs p hp
  exact ⟨fun hs => by rw [h]; simp [hs], fun hs => by rw [h]; simp [hs]⟩

/-- Witness for C2 at a concrete dictionary holding a sensitive and an
ordinary key. -/
theorem sanitize_values_spec_witness :
    ∃ ws : Vals,
      sanitize_values (some [("password", Value.vstr "hunter2"),
        ("username", Value.vstr "alice")]) = some ws
      ∧ ws.map Prod.fst
          = [("password", Value.vstr "hunter2"),
             ("username", Value.vstr "alice")].map Prod.fst
      ∧ ∀ p ∈ ([("password", Value.vstr "hunter2"),
          ("username", Value.vstr "alice")] : Vals).zip ws,
          (p.1.1 ∈ SENSITIVE_FIELDS → p.2.2 = Value.vstr "***REDACTED***")
          ∧ (p.1.1 ∉ SENSITIVE_FIELDS → p.2.2 = p.1.2) :=
  sanitize_values_spec.2.1
    [("password", Value.vstr "hunter2"), ("username", Value.vstr "alice")]

/-- Claim C5: `soft_delete` stamps `deleted_at` non-`None` making `is_deleted`
true, `restore` clears it making `is_deleted` false, restore after soft delete
is the not-deleted state (the original entity when it was not deleted),
`is_deleted` holds exactly when `deleted_at` is set, and `filter_active` adds
only a `deleted_at IS NULL` WHERE clause, preserving the statement's other
components. -/
theorem soft_delete_spec (e : OrmRow) (now : String) :
    (e.soft_delete now).is_deleted = true
    ∧ (e.soft_delete now).deleted_at ≠ none
    ∧ (OrmRow.restore e).is_deleted = false
    ∧ ((e.soft_delete now).restore).is_deleted = false
    ∧ (e.is_deleted = false → (e.soft_delete now).restore = e)
    ∧ (e.is_deleted = true ↔ e.deleted_at ≠ none)
    ∧ (∀ stmt : SelectStmt,
        (filter_active stmt).offsetN = stmt.offsetN
        ∧ (filter_active stmt).limitN = stmt.limitN
        ∧ (filter_active stmt).orderBy = stmt.orderBy
        ∧ ∀ r : OrmRow,
            matchesWheres (filter_active stmt) r
              = (matchesWheres stmt r && r.deleted_at.isNone)) := by
  refine ⟨rfl, by simp [OrmRow.soft_delete], by simp [OrmRow.restore, OrmRow.is_deleted],
    rfl, ?_, ?_, ?_⟩
  · intro h
    cases e with
    | mk id ca ua da =>
      cases da with
      | none => simp [OrmRow.soft_delete, OrmRow.restore]
      | some d => simp [OrmRow.is_deleted] at h
  · cases e with
    | mk id ca ua da =>
      cases da <;> simp [OrmRow.is_deleted]
  · intro stmt
    refine ⟨rfl, rfl, rfl, ?_⟩
    intro r
    simp [matchesWheres, filter_active, List.all_append]

/-- Witness for C5 at a concrete live row and a concrete statement. -/
theorem soft_delete_spec_witness :
    (OrmRow.is_deleted
      (OrmRow.soft_delete ⟨7, "t0", "t0", none⟩ "t1") = true)
    ∧ (OrmRow.is_deleted ⟨7, "t0", "t0", none⟩ = false →
        OrmRow.restore (OrmRow.soft_delete ⟨7, "t0", "t0", none⟩ "t1")
          = ⟨7, "t0", "t0", none⟩) :=
  ⟨(soft_delete_spec ⟨7, "t0", "t0", none⟩ "t1").1,
   (soft_delete_spec ⟨7, "t0", "t0", none⟩ "t1").2.2.2.2.1⟩

/-- Claim C7: `get_db` commits exactly when the handler completes normally;
on an exception it rolls back (the committed state is unchanged), re-raises
the same exception, and never commits. -/
theorem get_db_spec (σ ε : Type) (handler : σ → Except ε σ) (db : DbState σ) :
    (∀ s, handler db.pending = Except.ok s →
      get_db handler db
        = ({ committed := s, pending := s }, [SessionOp.commit], none))
    ∧ (∀ e, handler db.pending = Except.error e →
      get_db handler db
          = ({ committed := db.committed, pending := db.committed },
             [SessionOp.rollback], some e)
        ∧ SessionOp.commit ∉ (get_db handler db).2.1
        ∧ (get_db handler db).1.committed = db.committed) := by
  constructor
  · intro s hs
    simp [get_db, hs, db_commit]
  · intro e he
    simp [get_db, he, db_rollback]

/-- Witness for C7: a failing handler on a concrete database rolls back,
keeps the committed state, and re-raises its exception. -/
theorem get_db_spec_witness :
    get_db (fun _ : Nat => (Except.error "boom" : Except String Nat))
        ({ committed := 5, pending := 5 } : DbState Nat)
      = ({ committed := 5, pending := 5 }, [SessionOp.rollback], some "boom") :=
  ((get_db_spec Nat String (fun _ => Except.error "boom")
    { committed := 5, pending := 5 }).2 "boom" rfl).1

/-- Claim C9: an `AuditLog` instance is never audited, so a flush whose
pending objects are all audit rows creates no further audit records. -/
theorem audit_log_never_audited_spec :
    (∀ t : Entity, t.isAuditLog = true → _is_audited t = false)
    ∧ (∀ ctx now (s : SessionState),
        (∀ t ∈ s.newObjs ++ s.dirty ++ s.deleted, t.isAuditLog = true) →
        audit_after_flush ctx now s = []) := by
  constructor
  · intro t ht
    simp [_is_audited, ht]
  · intro ctx now s h
    have hn : ∀ t ∈ s.newObjs, t.isAuditLog = true := by
      intro t ht; exact h t (by simp [ht])
    have hd : ∀ t ∈ s.dirty, t.isAuditLog = true := by
      intro t ht; exact h t (by simp [ht])
    have hdel : ∀ t ∈ s.deleted, t.isAuditLog = true := by
      intro t ht; exact h t (by simp [ht])
    simp [audit_after_flush,
      audit_insert_recs_all_auditlog ctx now s.newObjs hn,
      audit_update_recs_all_auditlog ctx now s.dirty hd,
      audit_delete_recs_all_auditlog ctx now s.deleted hdel]

/-- Witness for C9: a session that only inserts one audit row produces no
further audit records. -/
theorem audit_log_never_audited_spec_witness :
    audit_after_flush ⟨none, none, none, none⟩ "t0"
      ⟨[⟨"audit_log", "rid", true, false, [], [], [], []⟩], [], []⟩ = [] :=
  audit_log_never_audited_spec.2 ⟨none, none, none, none⟩ "t0"
    ⟨[⟨"audit_log", "rid", true, false, [], [], [], []⟩], [], []⟩
    (by intro t ht; simp at ht; subst ht; rfl)

/-- Claim C10: with the contextvar unset, `get_request_context` creates,
stores and returns a fresh context whose four fields are all `None`, so
`get_current_user_id` and audit-record creation outside a request yield
`None` actor, IP and user agent instead of raising. -/
theorem get_request_context_spec :
    get_request_context none
      = (⟨none, none, none, none⟩, some ⟨none, none, none, none⟩)
    ∧ (get_current_user_id none).1 = none
    ∧ ∀ now action t old new cf,
        (create_audit_log (get_request_context none).1 now action t old new
          cf).changed_by = none
        ∧ (create_audit_log (get_request_context none).1 now action t old new
            cf).ip_address = none
        ∧ (create_audit_log (get_request_context none).1 now action t old new
            cf).user_agent = none :=
  ⟨rfl, rfl, fun _now _action _t _old _new _cf => ⟨rfl, rfl, rfl⟩⟩

/-- Witness for C10: an audit record created outside any request carries
`None` actor, IP and user agent. -/
theorem get_request_context_spec_witness :
    (create_audit_log (get_request_context none).1 "t0" AuditAction.INSERT
        ⟨"app_user", "rid", false, true, [], [], [], []⟩ none none
        none).changed_by = none
    ∧ (create_audit_log (get_request_context none).1 "t0" AuditAction.INSERT
        ⟨"app_user", "rid", false, true, [], [], [], []⟩ none none
        none).ip_address = none :=
  ⟨(get_request_context_spec.2.2 "t0" AuditAction.INSERT
      ⟨"app_user", "rid", false, true, [], [], [], []⟩ none none none).1,
   (get_request_context_spec.2.2 "t0" AuditAction.INSERT
      ⟨"app_user", "rid", false, true, [], [], [], []⟩ none none none).2.1⟩

/-- Claim C3: `get_changes` covers exactly the attributes with pending change
history whose key neither starts with an underscore, nor is a relationship,
nor is in `__audit_exclude__`; the old value is the first deleted history
entry (`None` when there is none), the new value the first added entry
(falling back to the current attribute value), both serialized; and
`changed_fields` lists exactly the included keys, in attribute order. -/
theorem get_changes_spec (t : Entity) :
    (get_changes t).2.2
      = (t.attrs.filter (fun a =>
          hist_has_changes a && !(startswith_underscore a.key)
            && !(t.relationshipKeys.contains a.key)
            && !(t.auditExclude.contains a.key))).map AttrState.key
    ∧ (get_changes t).1
      = (t.attrs.filter (fun a =>
          hist_has_changes a && !(startswith_underscore a.key)
            && !(t.relationshipKeys.contains a.key)
            && !(t.auditExclude.contains a.key))).map
          (fun a => (a.key, serialize_value (a.deleted.headD Value.vnone)))
    ∧ (get_changes t).2.1
      = (t.attrs.filter (fun a =>
          hist_has_changes a && !(startswith_underscore a.key)
            && !(t.relationshipKeys.contains a.key)
            && !(t.auditExclude.contains a.key))).map
          (fun a => (a.key, serialize_value (a.added.headD a.current))) := by
  have hpred : audit_included t = (fun a =>
      hist_has_changes a && !(startswith_underscore a.key)
        && !(t.relationshipKeys.contains a.key)
        && !(t.auditExclude.contains a.key)) := by
    funext a
    rfl
  have h := get_changes_loop_eq t t.attrs
  refine ⟨?_, ?_, ?_⟩
  · rw [show (get_changes t).2.2 = (get_changes_loop t t.attrs).2.2 from rfl, h,
      hpred]
  · rw [show (get_changes t).1 = (get_changes_loop t t.attrs).1 from rfl, h,
      hpred]
    exact List.map_congr_left (fun a _ => by rw [change_old_val_eq_headD])
  · rw [show (get_changes t).2.1 = (get_changes_loop t t.attrs).2.1 from rfl, h,
      hpred]
    exact List.map_congr_left (fun a _ => by rw [change_new_val_eq_headD])

/-- Witness for C3 at a concrete entity: one changed ordinary attribute, one
underscore attribute, one relationship, one excluded field, one unchanged
attribute. -/
theorem get_changes_spec_witness :
    (get_changes ⟨"app_user", "rid", false, true, ["hashed_password"],
        [],
        [⟨"email", [Value.vstr "a@x"], [Value.vstr "b@x"], Value.vstr "b@x"⟩,
         ⟨"_sa_adapter", [], [Value.vnone], Value.vnone⟩,
         ⟨"orders", [Value.vnone], [], Value.vnone⟩,
         ⟨"hashed_password", [Value.vstr "h1"], [Value.vstr "h2"],
            Value.vstr "h2"⟩,
         ⟨"username", [], [], Value.vstr "alice"⟩],
        ["orders"]⟩).2.2
      = (([⟨"email", [Value.vstr "a@x"], [Value.vstr "b@x"], Value.vstr "b@x"⟩,
         ⟨"_sa_adapter", [], [Value.vnone], Value.vnone⟩,
         ⟨"orders", [Value.vnone], [], Value.vnone⟩,
         ⟨"hashed_password", [Value.vstr "h1"], [Value.vstr "h2"],
            Value.vstr "h2"⟩,
         ⟨"username", [], [], Value.vstr "alice"⟩] : List AttrState).filter
          (fun a =>
            hist_has_changes a && !(startswith_underscore a.key)
              && !((["orders"] : List String).contains a.key)
              && !((["hashed_password"] : List String).contains a.key))).map
          AttrState.key :=
  (get_changes_spec ⟨"app_user", "rid", false, true, ["hashed_password"],
    [],
    [⟨"email", [Value.vstr "a@x"], [Value.vstr "b@x"], Value.vstr "b@x"⟩,
     ⟨"_sa_adapter", [], [Value.vnone], Value.vnone⟩,
     ⟨"orders", [Value.vnone], [], Value.vnone⟩,
     ⟨"hashed_password", [Value.vstr "h1"], [Value.vstr "h2"],
        Value.vstr "h2"⟩,
     ⟨"username", [], [], Value.vstr "alice"⟩],
    ["orders"]⟩).1

/-- Claim C1: `audit_after_flush` creates exactly one record per audited new
entity (INSERT, serialized exclusion-filtered column values as `new_values`,
then redacted), per audited dirty entity with a non-empty changed-field list
(UPDATE with old/new values and changed fields), and per audited deleted
entity (DELETE with the serialized exclusion-filtered columns as
`old_values`); every record carries the ambient context's user id, IP and user
agent; entities that are not audited produce no record. -/
theorem audit_after_flush_spec (ctx : RequestContext) (now : String)
    (s : SessionState) :
    (audit_after_flush ctx now s).length
      = (s.newObjs.filter _is_audited).length
        + (s.dirty.filter (fun t =>
            _is_audited t && !(get_changes t).2.2.isEmpty)).length
        + (s.deleted.filter _is_audited).length
    ∧ (∀ t ∈ s.newObjs, _is_audited t = true →
        ({ table_name := t.tablename, record_id := t.idStr,
           action := AuditAction.INSERT, old_values := none,
           new_values := sanitize_values (some (_serialize_values
             (_filter_excluded (_model_to_dict t) (_get_exclude_fields t)))),
           changed_fields := none, changed_by := ctx.user_id,
           changed_at := now, ip_address := ctx.ip_address,
           user_agent := ctx.user_agent } : AuditLogRec)
          ∈ audit_after_flush ctx now s)
    ∧ (∀ t ∈ s.dirty, _is_audited t = true → (get_changes t).2.2 ≠ [] →
        ({ table_name := t.tablename, record_id := t.idStr,
           action := AuditAction.UPDATE,
           old_values := sanitize_values (some (get_changes t).1),
           new_values := sanitize_values (some (get_changes t).2.1),
           changed_fields := some (get_changes t).2.2,
           changed_by := ctx.user_id, changed_at := now,
           ip_address := ctx.ip_address,
           user_agent := ctx.user_agent } : AuditLogRec)
          ∈ audit_after_flush ctx now s)
    ∧ (∀ t ∈ s.deleted, _is_audited t = true →
        ({ table_name := t.tablename, record_id := t.idStr,
           action := AuditAction.DELETE,
           old_values := sanitize_values (some (_serialize_values
             (_filter_excluded (_model_to_dict t) (_get_exclude_fields t)))),
           new_values := none, changed_fields := none,
           changed_by := ctx.user_id, changed_at := now,
           ip_address := ctx.ip_address,
           user_agent := ctx.user_agent } : AuditLogRec)
          ∈ audit_after_flush ctx now s)
    ∧ (∀ r ∈ audit_after_flush ctx now s,
        r.changed_by = ctx.user_id ∧ r.ip_address = ctx.ip_address
          ∧ r.user_agent = ctx.user_agent ∧ r.changed_at = now)
    ∧ ((∀ t ∈ s.newObjs ++ s.dirty ++ s.deleted, _is_audited t = false) →
        audit_after_flush ctx now s = []) := by
  have hins := audit_insert_recs_eq ctx now s.newObjs
  have hupd := audit_update_recs_eq ctx now s.dirty
  have hdel := audit_delete_recs_eq ctx now s.deleted
  refine ⟨?_, ?_, ?_, ?_, ?_, ?_⟩
  · simp [audit_after_flush, hins, hupd, hdel, Nat.add_assoc]
  · intro t ht haud
    apply List.mem_append_left
    apply List.mem_append_left
    rw [hins]
    exact List.mem_map_of_mem _ (List.mem_filter.mpr ⟨ht, haud⟩)
  · intro t ht haud hcf
    apply List.mem_append_left
    apply List.mem_append_right
    rw [hupd]
    have : (_is_audited t && !(get_changes t).2.2.isEmpty) = true := by
      simp [haud, List.isEmpty_iff, hcf]
    exact List.mem_map_of_mem _ (List.mem_filter.mpr ⟨ht, this⟩)
  · intro t ht haud
    apply List.mem_append_right
    rw [hdel]
    exact List.mem_map_of_mem _ (List.mem_filter.mpr ⟨ht, haud⟩)
  · intro r hr
    rcases List.mem_append.mp hr with hr | hr
    · rcases List.mem_append.mp hr with hr | hr
      · rw [hins] at hr
        rcases List.mem_map.mp hr with ⟨t, _, rfl⟩
        exact ⟨rfl, rfl, rfl, rfl⟩
      · rw [hupd] at hr
        rcases List.mem_map.mp hr with ⟨t, _, rfl⟩
        exact ⟨rfl, rfl, rfl, rfl⟩
    · rw [hdel] at hr
      rcases List.mem_map.mp hr with ⟨t, _, rfl⟩
      exact ⟨rfl, rfl, rfl, rfl⟩
  · intro h
    have hn : ∀ t ∈ s.newObjs, _is_audited t = false := by
      intro t ht; exact h t (by simp [ht])
    have hd : ∀ t ∈ s.dirty, _is_audited t = false := by
      intro t ht; exact h t (by simp [ht])
    have hdl : ∀ t ∈ s.deleted, _is_audited t = false := by
      intro t ht; exact h t (by simp [ht])
    simp only [audit_after_flush, hins, hupd, hdel, List.append_eq_nil,
      List.map_eq_nil_iff, List.filter_eq_nil_iff]
    refine ⟨⟨?_, ?_⟩, ?_⟩
    · intro t ht; simp [hn t ht]
    · intro t ht; simp [hd t ht]
    · intro t ht; simp [hdl t ht]

/-- Witness for C1: a concrete flush with one audited insert, one audited
update with a changed field, one audited delete and one non-audited insert
produces exactly three records, all stamped with the ambient context. -/
theorem audit_after_flush_spec_witness :
    (audit_after_flush
        ⟨some 7, some "10.0.0.1", some "curl/8", some "req-1"⟩ "t0"
        ⟨[⟨"app_user", "r1", false, true, [], [("email", Value.vstr "a@x")],
            [], []⟩,
          ⟨"other", "r2", false, false, [], [], [], []⟩],
         [⟨"app_user", "r3", false, true, [],
            [("email", Value.vstr "b@x")],
            [⟨"email", [Value.vstr "a@x"], [Value.vstr "b@x"],
               Value.vstr "b@x"⟩], []⟩],
         [⟨"app_user", "r4", false, true, [], [("email", Value.vstr "c@x")],
            [], []⟩]⟩).length = 3 :=
  (audit_after_flush_spec
    ⟨some 7, some "10.0.0.1", some "curl/8", some "req-1"⟩ "t0"
    ⟨[⟨"app_user", "r1", false, true, [], [("email", Value.vstr "a@x")],
        [], []⟩,
      ⟨"other", "r2", false, false, [], [], [], []⟩],
     [⟨"app_user", "r3", false, true, [],
        [("email", Value.vstr "b@x")],
        [⟨"email", [Value.vstr "a@x"], [Value.vstr "b@x"],
           Value.vstr "b@x"⟩], []⟩],
     [⟨"app_user", "r4", false, true, [], [("email", Value.vstr "c@x")],
        [], []⟩]⟩).1.trans (by decide)

/-- Claim C4 counterexample: an Enum member whose underlying value is a
datetime is mapped to that datetime, which `json.dumps` does not accept, so
`serialize_value` does not map every input to a JSON-compatible value. -/
theorem serialize_value_enum_counterexample :
    serialize_value (Value.venum (Value.vdatetime "2024-01-01T00:00:00+00:00"))
      = Value.vdatetime "2024-01-01T00:00:00+00:00"
    ∧ jsonDumpsOk (serialize_value
        (Value.venum (Value.vdatetime "2024-01-01T00:00:00+00:00"))) = false :=
  ⟨rfl, rfl⟩

/-- Claim C4 as amended: `serialize_value` maps `None` to `None`, every
datetime to its ISO-8601 string, every UUID to its string form, every Enum
member to its underlying value, every `json.dumps`-accepted value to itself,
and every other non-Enum value to its `str()`; its result is JSON-compatible
for every input that is not an Enum member with a non-JSON-compatible
underlying value; it is total (never raises). -/
theorem serialize_value_spec :
    serialize_value Value.vnone = Value.vnone
    ∧ (∀ iso, serialize_value (Value.vdatetime iso) = Value.vstr iso)
    ∧ (∀ n, serialize_value (Value.vuuid n) = Value.vstr (uuidToString n))
    ∧ (∀ v, serialize_value (Value.venum v) = v)
    ∧ (∀ v, jsonDumpsOk v = true → serialize_value v = v)
    ∧ (∀ v, (∀ w, v ≠ Value.venum w) → jsonDumpsOk v = false →
        serialize_value v = Value.vstr (pyStr v))
    ∧ (∀ v, (∀ w, v = Value.venum w → jsonDumpsOk w = true) →
        jsonDumpsOk (serialize_value v) = true) := by
  refine ⟨rfl, fun iso => rfl, fun n => rfl, fun v => rfl, ?_, ?_, ?_⟩
  · intro v h
    cases v <;> simp_all [serialize_value, jsonDumpsOk]
  · intro v hne h
    cases v with
    | venum w => exact absurd rfl (hne w)
    | _ => simp_all [serialize_value, jsonDumpsOk, pyStr]
  · intro v h
    cases v with
    | venum w => simpa [serialize_value] using h w rfl
    | vobj ok s =>
      by_cases hok : ok = true
      · simp [serialize_value, jsonDumpsOk, hok]
      · simp [serialize_value, jsonDumpsOk, hok]
    | _ => simp [serialize_value, jsonDumpsOk]

/-- Witness for amended C4: a UUID value serializes to its string and the
result is JSON-compatible; an Enum over a string keeps its value and stays
JSON-compatible. -/
theorem serialize_value_spec_witness :
    serialize_value (Value.vuuid 0) = Value.vstr (uuidToString 0)
    ∧ jsonDumpsOk (serialize_value (Value.venum (Value.vstr "INSERT")))
        = true :=
  ⟨serialize_value_spec.2.2.1 0,
   serialize_value_spec.2.2.2.2.2.2 (Value.venum (Value.vstr "INSERT"))
     (fun w hw => by
       have h2 : Value.vstr "INSERT" = w := (Value.venum.injEq _ _).mp hw
       rw [← h2]
       rfl)⟩

/-- Claim C6: decoding a token created by `create_access_token` with
`sub = str(u)` under the same secret before expiry returns `u`; and
`decode_access_token` returns `None` (it is total, so never raises) for a
malformed token, a token signed with a different secret, an expired token, a
payload lacking `sub`, a null `sub`, an empty `sub`, and a `sub` that is not a
valid UUID. -/
theorem decode_access_token_spec (secret : String) (now : Nat) :
    (∀ (u t0 expMin : Nat) (delta : Option Nat), u < 16 ^ 32 →
      ¬ t0 + delta.getD (expMin * 60) < now →
      decode_access_token
        (create_access_token [("sub", JwtVal.jstr (uuidToString u))] secret t0
          expMin delta) secret now = some u)
    ∧ (∀ s, decode_access_token (TokenRepr.malformed s) secret now = none)
    ∧ (∀ payload exp sec, sec ≠ secret →
        decode_access_token (TokenRepr.signed payload exp sec) secret now
          = none)
    ∧ (∀ payload exp, exp < now →
        decode_access_token (TokenRepr.signed payload exp secret) secret now
          = none)
    ∧ (∀ (payload : List (String × JwtVal)) exp,
        payload.lookup "sub" = none →
        decode_access_token (TokenRepr.signed payload exp secret) secret now
          = none)
    ∧ (∀ (payload : List (String × JwtVal)) exp,
        payload.lookup "sub" = some JwtVal.jnull →
        decode_access_token (TokenRepr.signed payload exp secret) secret now
          = none)
    ∧ (∀ (payload : List (String × JwtVal)) exp,
        payload.lookup "sub" = some (JwtVal.jstr "") →
        decode_access_token (TokenRepr.signed payload exp secret) secret now
          = none)
    ∧ (∀ (payload : List (String × JwtVal)) exp s,
        payload.lookup "sub" = some (JwtVal.jstr s) → parseUUID s = none →
        decode_access_token (TokenRepr.signed payload exp secret) secret now
          = none) := by
  refine ⟨?_, fun s => rfl, ?_, ?_, ?_, ?_, ?_, ?_⟩
  · intro u t0 expMin delta hu hexp
    simp only [create_access_token, decode_access_token, jwt_decode,
      if_pos rfl, if_neg hexp, eq_self_iff_true, if_true]
    have hlk : List.lookup "sub" [("sub", JwtVal.jstr (uuidToString u))]
        = some (JwtVal.jstr (uuidToString u)) := rfl
    rw [hlk]
    show (if uuidToString u = "" then (none : Option Nat)
      else parseUUID (uuidToString u)) = some u
    rw [if_neg (uuidToString_ne_empty u)]
    exact parseUUID_uuidToString u hu
  · intro payload exp sec hsec
    simp [decode_access_token, jwt_decode, hsec]
  · intro payload exp hexp
    simp [decode_access_token, jwt_decode, hexp]
  · intro payload exp hsub
    by_cases hexp : exp < now
    · simp [decode_access_token, jwt_decode, hexp]
    · simp [decode_access_token, jwt_decode, hexp, hsub]
  · intro payload exp hsub
    by_cases hexp : exp < now
    · simp [decode_access_token, jwt_decode, hexp]
    · simp [decode_access_token, jwt_decode, hexp, hsub]
  · intro payload exp hsub
    by_cases hexp : exp < now
    · simp [decode_access_token, jwt_decode, hexp]
    · simp [decode_access_token, jwt_decode, hexp, hsub]
  · intro payload exp s hsub hbad
    by_cases hexp : exp < now
    · simp [decode_access_token, jwt_decode, hexp]
    · by_cases hempty : s = ""
      · simp [decode_access_token, jwt_decode, hexp, hsub, hempty]
      · simp [decode_access_token, jwt_decode, hexp, hsub, hempty, hbad]

/-- Witness for C6: a concrete token for user id 291 round-trips, and a
token with a non-UUID `sub` decodes to `None`. -/
theorem decode_access_token_spec_witness :
    decode_access_token
      (create_access_token [("sub", JwtVal.jstr (uuidToString 291))] "k" 0 30
        none) "k" 0 = some 291
    ∧ decode_access_token
        (TokenRepr.signed [("sub", JwtVal.jstr "nope")] 99 "k") "k" 0 = none :=
  ⟨(decode_access_token_spec "k" 0).1 291 0 30 none (by norm_num)
     (by simp),
   (decode_access_token_spec "k" 0).2.2.2.2.2.2.2
     [("sub", JwtVal.jstr "nope")] 99 "nope" rfl rfl⟩

/-- Claim C8 (code evaluated at the failing inputs): `UserService.create`'s
lookup `repository.get_by_username(..., include_deleted=True)` hits a method
the repository does not define (`AttributeError`), and `UserService.list`'s
call `repository.list(page=..., page_size=...)` passes keywords the
repository's `list(skip, limit)` does not accept (`TypeError`); the `get` and
`delete` delegations do resolve. -/
theorem user_service_repository_mismatch :
    callUserRepository "get_by_username" ["include_deleted"]
      = PyCallResult.attributeError
    ∧ callUserRepository "list" ["page", "page_size"] = PyCallResult.typeError
    ∧ callUserRepository "get_by_id" [] = PyCallResult.ok
    ∧ callUserRepository "delete" [] = PyCallResult.ok
    ∧ ("create", "get_by_username", ["include_deleted"])
        ∈ userServiceRepositoryCalls
    ∧ ("list", "list", ["page", "page_size"]) ∈ userServiceRepositoryCalls := by
  refine ⟨rfl, rfl, rfl, rfl, ?_, ?_⟩ <;> simp [userServiceRepositoryCalls]

end ModularApi
